import Mathlib

/-!
A shallow embedding of the core of the neo-project repository
(src/validation.py, src/models.py, src/extract.py, src/write.py),
with theorems checking the natural-language specification against it.

Python floats are modelled by `FVal` (a rational number or the NaN
sentinel); Python `None` by `Option`; a raised exception by
`Except`/`Option` failure.  File output is modelled as the list of
write/flush events performed on the output handle.
-/

/-- A Python float as the data set uses it: either an ordinary (rational)
magnitude or the not-a-number sentinel `float("nan")`. -/
inductive FVal where
  | nan : FVal
  | num : ℚ → FVal
deriving DecidableEq, Repr

/-- Python `x != x`, which is true exactly on NaN (the idiom models.py uses
to test for the unknown-diameter sentinel). -/
def FVal.selfNe : FVal → Bool
  | .nan => true
  | .num _ => false

/-- Leading-whitespace removal on a character list (structural recursion,
so that the kernel can evaluate it). -/
def dropLeadingWs : List Char → List Char
  | [] => []
  | c :: cs => if c.isWhitespace then dropLeadingWs cs else c :: cs

/-- Python `str.strip()`: remove whitespace from both ends. -/
def pyStrip (s : String) : String :=
  ⟨(dropLeadingWs (dropLeadingWs s.data).reverse).reverse⟩

/-- The numeric value of a nonempty list of decimal digits, if every
character is a digit. -/
def decDigits? (cs : List Char) : Option ℕ :=
  if cs ≠ [] ∧ cs.all Char.isDigit then
    some (cs.foldl (fun n c => 10 * n + (c.toNat - 48)) 0)
  else none

/-- The magnitude of an unsigned decimal literal: digits, optionally a dot
and further digits. -/
def decMagnitude? (cs : List Char) : Option ℚ :=
  match cs.span (fun c => c ≠ '.') with
  | (intPart, []) => (decDigits? intPart).map (fun n => (n : ℚ))
  | (intPart, _dot :: fracPart) => do
    let i ← decDigits? intPart
    let f ← decDigits? fracPart
    pure ((i : ℚ) + (f : ℚ) / (10 : ℚ) ^ fracPart.length)

/-- Python's builtin `float(s)` on the plain-decimal fragment of its input
language (optional sign, digits, optional fraction, surrounding
whitespace).  Literals outside this fragment ("nan", "inf", exponents) do
not occur in the catalog data this program parses; they are treated as the
failure case, like any unparsable string (Python raises ValueError). -/
def pyFloat? (s : String) : Option ℚ :=
  match (pyStrip s).data with
  | '-' :: rest => (decMagnitude? rest).map (fun q => -q)
  | '+' :: rest => decMagnitude? rest
  | cs => decMagnitude? cs

/-- A raised ValidationError is the error case; normal return is `ok`. -/
def raisesValidation : Except String Unit → Bool
  | .error _ => true
  | .ok _ => false

/-- src/validation.py `validate_distance_range`: all three checks sit
inside the `min is not None and max is not None` guard; each raise ends
the function, so the three sequential `if` statements chain. -/
def validate_distance_range (min_distance max_distance : Option ℚ) :
    Except String Unit :=
  match min_distance, max_distance with
  | some mn, some mx =>
    if mn > mx then
      .error ("Minimum distance " ++ toString mn ++
        " cannot be greater than maximum distance " ++ toString mx)
    else if mn < 0 then
      .error ("Minimum distance " ++ toString mn ++ " cannot be negative")
    else if mx < 0 then
      .error ("Maximum distance " ++ toString mx ++ " cannot be negative")
    else .ok ()
  | _, _ => .ok ()

/-- src/validation.py `validate_velocity_range` (same shape as distance). -/
def validate_velocity_range (min_velocity max_velocity : Option ℚ) :
    Except String Unit :=
  match min_velocity, max_velocity with
  | some mn, some mx =>
    if mn > mx then
      .error ("Minimum velocity " ++ toString mn ++
        " cannot be greater than maximum velocity " ++ toString mx)
    else if mn < 0 then
      .error ("Minimum velocity " ++ toString mn ++ " cannot be negative")
    else if mx < 0 then
      .error ("Maximum velocity " ++ toString mx ++ " cannot be negative")
    else .ok ()
  | _, _ => .ok ()

/-- src/validation.py `validate_diameter_range`: textually the same checks
as distance and velocity, negative-bound checks included. -/
def validate_diameter_range (min_diameter max_diameter : Option ℚ) :
    Except String Unit :=
  match min_diameter, max_diameter with
  | some mn, some mx =>
    if mn > mx then
      .error ("Minimum diameter " ++ toString mn ++
        " cannot be greater than maximum diameter " ++ toString mx)
    else if mn < 0 then
      .error ("Minimum diameter " ++ toString mn ++ " cannot be negative")
    else if mx < 0 then
      .error ("Maximum diameter " ++ toString mx ++ " cannot be negative")
    else .ok ()
  | _, _ => .ok ()

/-- The condition the claims ascribe to distance/velocity validation:
ordering violation with both bounds present, or any present negative
bound (even with the other bound absent). -/
def rangeClaimRaises (mn mx : Option ℚ) : Bool :=
  (match mn, mx with
   | some a, some b => a > b
   | _, _ => false) ||
  (match mn with
   | some a => a < 0
   | none => false) ||
  (match mx with
   | some b => b < 0
   | none => false)

/-- The condition the claims ascribe to diameter validation: an ordering
violation with both bounds present, and nothing else. -/
def orderingOnlyRaises (mn mx : Option ℚ) : Bool :=
  match mn, mx with
  | some a, some b => a > b
  | _, _ => false

/-- The `diameter` argument of `NearEarthObject.__init__` as its callers
supply it: Python `None`, a string field from the catalog, or a float
(the default is `float("nan")`). -/
inductive DiamArg where
  | pyNone : DiamArg
  | pyStr : String → DiamArg
  | pyNum : FVal → DiamArg
deriving DecidableEq, Repr

/-- Python truthiness of the diameter argument: `None` is falsy, a string
is truthy iff nonempty, a float is truthy iff nonzero (NaN is truthy). -/
def DiamArg.truthy : DiamArg → Bool
  | .pyNone => false
  | .pyStr s => s ≠ ""
  | .pyNum v =>
    match v with
    | .num q => q ≠ 0
    | .nan => true

/-- Truthiness of `str(diameter).strip()`.  `str` of `None` is "None" and
`str` of a float is a nonempty numeral, neither of which strips to the
empty string; only a string argument can. -/
def DiamArg.strStripTruthy : DiamArg → Bool
  | .pyNone => true
  | .pyStr s => pyStrip s ≠ ""
  | .pyNum _ => true

/-- Python `float(diameter)`: a float converts to itself, a string is
parsed (ValueError on failure), `None` raises TypeError. -/
def DiamArg.toFloat? : DiamArg → Option FVal
  | .pyNone => none
  | .pyStr s => (pyFloat? s).map FVal.num
  | .pyNum v => some v

/-- The scalar state of src/models.py `NearEarthObject` (the `approaches`
collection is external linking state, empty at construction). -/
structure NearEarthObject where
  designation : String
  name : Option String
  diameter : FVal
  hazardous : Bool
deriving DecidableEq, Repr

/-- The dictionary `NearEarthObject.serialize()` returns. -/
structure NeoRecord where
  designation : String
  name : String
  diameter_km : FVal
  potentially_hazardous : Bool
deriving DecidableEq, Repr

/-- src/models.py `NearEarthObject.__init__`.  `none` is a raised
conversion error from `float(diameter)`.  The `name` argument is Python
`None` or a string, as every caller supplies it. -/
def NearEarthObject.make (designation : String) (name : Option String)
    (diameter : DiamArg) (hazardous : Bool) : Option NearEarthObject := do
  let des := if designation ≠ "" then designation else ""
  let nm :=
    match name with
    | some s => if s ≠ "" && pyStrip s ≠ "" then some s else none
    | none => none
  let di ←
    if diameter.truthy && diameter.strStripTruthy then diameter.toFloat?
    else some FVal.nan
  pure { designation := des, name := nm, diameter := di, hazardous := hazardous }

/-- src/models.py `NearEarthObject.serialize`. -/
def NearEarthObject.serialize (n : NearEarthObject) : NeoRecord :=
  { designation := n.designation
  , name :=
      match n.name with
      | some s => if s ≠ "" then s else ""
      | none => ""
  , diameter_km := if !(FVal.selfNe n.diameter) then n.diameter else FVal.nan
  , potentially_hazardous := n.hazardous }

/-- One row of the tabular NEO catalog, restricted to the four fields
src/extract.py `load_neos` reads. -/
structure NeoRow where
  pdes : String
  name : String
  diameter : String
  pha : String
deriving DecidableEq, Repr

/-- The loop body of src/extract.py `load_neos` for one CSV row. -/
def load_neo_row (row : NeoRow) : Option NearEarthObject :=
  let designation := row.pdes
  let name := if pyStrip row.name ≠ "" then some row.name else none
  let diameter :=
    if pyStrip row.diameter ≠ "" then DiamArg.pyStr row.diameter
    else DiamArg.pyNone
  let hazardous := row.pha = "Y"
  NearEarthObject.make designation name diameter hazardous

/-- A tabular row is valid when its diameter field is empty or parses as a
float, so that `load_neos` raises no conversion error on it. -/
def NeoRow.valid (row : NeoRow) : Bool :=
  pyStrip row.diameter = "" || (pyFloat? row.diameter).isSome

/-- Modelled from the spec: `helpers.cd_to_datetime` (helpers.py is not
among the repository files provided).  The spec treats the timestamp
conversion pair as pure functions with a fixed textual format, so a
datetime value is represented here by its source text. -/
def cd_to_datetime (calendar_date : String) : String := calendar_date

/-- Modelled from the spec: `helpers.datetime_to_str`, the inverse
direction of the fixed-format conversion pair. -/
def datetime_to_str (dt : String) : String := dt

/-- The scalar state of src/models.py `CloseApproach`. -/
structure CloseApproach where
  _designation : String
  time : Option String
  distance : FVal
  velocity : FVal
  neo : Option NearEarthObject
deriving DecidableEq, Repr

/-- The nested dictionary `CloseApproach.serialize()` returns. -/
structure ApproachRecord where
  datetime_utc : String
  distance_au : FVal
  velocity_km_s : FVal
  neo : NeoRecord
deriving DecidableEq, Repr

/-- src/models.py `CloseApproach.__init__` on the string field values that
src/extract.py `load_approaches` passes it; `none` is a raised float
conversion error. -/
def CloseApproach.make (designation time distance velocity : String) :
    Option CloseApproach := do
  let des := if designation ≠ "" then designation else ""
  let t := if time ≠ "" then some (cd_to_datetime time) else none
  let d ←
    if distance ≠ "" then (pyFloat? distance).map FVal.num
    else some (FVal.num 0)
  let v ←
    if velocity ≠ "" then (pyFloat? velocity).map FVal.num
    else some (FVal.num 0)
  pure { _designation := des, time := t, distance := d, velocity := v, neo := none }

/-- src/models.py `CloseApproach.time_str`. -/
def CloseApproach.time_str (a : CloseApproach) : String :=
  match a.time with
  | some t => datetime_to_str t
  | none => ""

/-- src/models.py `CloseApproach.serialize`. -/
def CloseApproach.serialize (a : CloseApproach) : ApproachRecord :=
  { datetime_utc := a.time_str
  , distance_au := a.distance
  , velocity_km_s := a.velocity
  , neo :=
      match a.neo with
      | some n => n.serialize
      | none =>
        { designation := a._designation
        , name := ""
        , diameter_km := FVal.nan
        , potentially_hazardous := false } }

/-- The row loop of src/extract.py `load_approaches`, with the four column
indices already resolved; `none` is a raised IndexError or conversion
error. -/
def loadApproachRows (des_idx cd_idx dist_idx v_rel_idx : ℕ) :
    List (List String) → Option (List CloseApproach)
  | [] => some []
  | row :: rest => do
    let designation ← row.get? des_idx
    let time ← row.get? cd_idx
    let distance ← row.get? dist_idx
    let velocity ← row.get? v_rel_idx
    let approach ← CloseApproach.make designation time distance velocity
    let approaches ← loadApproachRows des_idx cd_idx dist_idx v_rel_idx rest
    pure (approach :: approaches)

/-- src/extract.py `load_approaches` after the JSON file read: `fields` and
`data` are the two members of the parsed object.  Each required column's
position is resolved once by name (`list.index`, whose ValueError on a
missing name is the `none` case), then every data row is read at those
positions. -/
def load_approaches (fields : List String) (data : List (List String)) :
    Option (List CloseApproach) := do
  let des_idx ← fields.indexOf? ("des")
  let cd_idx ← fields.indexOf? ("cd")
  let dist_idx ← fields.indexOf? ("dist")
  let v_rel_idx ← fields.indexOf? ("v_rel")
  loadApproachRows des_idx cd_idx dist_idx v_rel_idx data

/-- Reindexing of a list by a list of positions (out-of-range positions
read as the empty string); applying it with a permutation of
`List.range n` models reordering the columns of an n-column file. -/
def permuteBy (p : List ℕ) (l : List String) : List String :=
  p.map (fun i => l.getD i "")

/-- First-match association lookup, the specification-side description of
looking a column name up in a header and reading that position of a row. -/
def assocFind (key : String) : List (String × String) → Option String
  | [] => none
  | (k, v) :: rest => if k = key then some v else assocFind key rest

/-- The exception kinds src/write.py distinguishes when one entity's
serialization fails. -/
inductive ExcKind where
  | attrErr : ExcKind
  | keyErr : ExcKind
  | typeErr : ExcKind
  | otherErr : ExcKind
deriving DecidableEq, Repr

/-- One entity of the results stream, abstracted to what the writers see:
its serialization either yields the rendered record text or raises. -/
inductive SerResult where
  | ok : String → SerResult
  | err : ExcKind → SerResult
deriving DecidableEq, Repr

/-- `except (AttributeError, TypeError)` in both JSON writers. -/
def jsonHandled : ExcKind → Bool
  | .attrErr => true
  | .typeErr => true
  | _ => false

/-- `except (AttributeError, KeyError)` in the CSV writer. -/
def csvHandled : ExcKind → Bool
  | .attrErr => true
  | .keyErr => true
  | _ => false

/-- An operation performed on the output file handle. -/
inductive WEvent where
  | write : String → WEvent
  | flush : WEvent
deriving DecidableEq, Repr

/-- The bytes a list of handle events leaves in the file. -/
def fileContents : List WEvent → String
  | [] => ""
  | WEvent.write s :: evs => s ++ fileContents evs
  | WEvent.flush :: evs => fileContents evs

/-- The loop of src/write.py `write_to_json`: the comma separator is
written (and the `first` flag cleared) before the serialization attempt;
AttributeError/TypeError skip the entity, any other exception propagates
with the events performed so far. -/
def jsonLoop : List SerResult → Bool → List WEvent × Option ExcKind
  | [], _ => ([], none)
  | r :: rs, first =>
    let sep : List WEvent := if first then [] else [WEvent.write ",\n"]
    match r with
    | .ok s =>
      let step := jsonLoop rs false
      (sep ++ WEvent.write s :: step.1, step.2)
    | .err k =>
      if jsonHandled k then
        let step := jsonLoop rs false
        (sep ++ step.1, step.2)
      else (sep, some k)

/-- src/write.py `write_to_json`: opening bracket, the loop, and the
closing bracket — which is reached only when no exception escaped the
loop.  The second component is the escaping exception, if any. -/
def write_to_json (results : List SerResult) : List WEvent × Option ExcKind :=
  match jsonLoop results true with
  | (evs, none) => (WEvent.write "[\n" :: evs ++ [WEvent.write "\n]"], none)
  | (evs, some k) => (WEvent.write "[\n" :: evs, some k)

/-- The loop of src/write.py `write_to_json_streaming`: identical to the
`write_to_json` loop except for the `file.flush()` after each dump. -/
def jsonStreamLoop : List SerResult → Bool → List WEvent × Option ExcKind
  | [], _ => ([], none)
  | r :: rs, first =>
    let sep : List WEvent := if first then [] else [WEvent.write ",\n"]
    match r with
    | .ok s =>
      let step := jsonStreamLoop rs false
      (sep ++ WEvent.write s :: WEvent.flush :: step.1, step.2)
    | .err k =>
      if jsonHandled k then
        let step := jsonStreamLoop rs false
        (sep ++ step.1, step.2)
      else (sep, some k)

/-- src/write.py `write_to_json_streaming`. -/
def write_to_json_streaming (results : List SerResult) :
    List WEvent × Option ExcKind :=
  match jsonStreamLoop results true with
  | (evs, none) => (WEvent.write "[\n" :: evs ++ [WEvent.write "\n]"], none)
  | (evs, some k) => (WEvent.write "[\n" :: evs, some k)

/-- The fixed header row src/write.py `write_to_csv` writes. -/
def csvHeader : String :=
  "datetime_utc,distance_au,velocity_km_s,designation,name,diameter_km,potentially_hazardous\r\n"

/-- The loop of src/write.py `write_to_csv`: a successful serialization
writes the flattened row; AttributeError/KeyError skip the entity, any
other exception propagates. -/
def csvLoop : List SerResult → List WEvent × Option ExcKind
  | [] => ([], none)
  | r :: rs =>
    match r with
    | .ok s =>
      let step := csvLoop rs
      (WEvent.write s :: step.1, step.2)
    | .err k =>
      if csvHandled k then csvLoop rs else ([], some k)

/-- src/write.py `write_to_csv`: header, then the row loop. -/
def write_to_csv (results : List SerResult) : List WEvent × Option ExcKind :=
  let step := csvLoop results
  (WEvent.write csvHeader :: step.1, step.2)

/-- The events with the flushes dropped: what remains of a handle history
when only the bytes written matter. -/
def noFlush (evs : List WEvent) : List WEvent :=
  evs.filter (fun e => e ≠ WEvent.flush)

/-- The texts of the entities whose serialization succeeds. -/
def okStrings : List SerResult → List String
  | [] => []
  | SerResult.ok s :: rs => s :: okStrings rs
  | SerResult.err _ :: rs => okStrings rs

/-- What one entity contributes between its separators: its text when it
serializes, nothing when it is skipped. -/
def emitted : SerResult → String
  | .ok s => s
  | .err _ => ""

/-- The text the JSON loop writes after its first iteration: a separator
before every later entity, then that entity's contribution. -/
def tailJoin : List SerResult → String
  | [] => ""
  | r :: rs => ",\n" ++ emitted r ++ tailJoin rs

/-- Elements joined with a separator between consecutive ones. -/
def joinSep (sep : String) : List String → String
  | [] => ""
  | [x] => x
  | x :: xs => x ++ sep ++ joinSep sep xs

/-- The claimed shape of the JSON file: a bracketed array of the given
element texts separated by commas. -/
def jsonArrayOf (elems : List String) : String :=
  "[\n" ++ joinSep ",\n" elems ++ "\n]"

/-- Every failing entity of the stream raises a kind the JSON writers
handle. -/
def jsonAllHandled (results : List SerResult) : Bool :=
  results.all (fun r =>
    match r with
    | SerResult.ok _ => true
    | SerResult.err k => jsonHandled k)

/-- Every failing entity of the stream raises a kind the CSV writer
handles. -/
def csvAllHandled (results : List SerResult) : Bool :=
  results.all (fun r =>
    match r with
    | SerResult.ok _ => true
    | SerResult.err k => csvHandled k)

/-! ## Validation range checks (claims C1 and C4) -/

theorem validate_distance_range_raises_iff (mn mx : Option ℚ) :
    raisesValidation (validate_distance_range mn mx) = true ↔
      ∃ a b, mn = some a ∧ mx = some b ∧ (a > b ∨ a < 0 ∨ b < 0) := by
  cases mn with
  | none => simp [validate_distance_range, raisesValidation]
  | some a =>
    cases mx with
    | none => simp [validate_distance_range, raisesValidation]
    | some b =>
      simp only [validate_distance_range]
      split_ifs with h1 h2 h3
      · simp only [raisesValidation, true_iff]
        exact ⟨a, b, rfl, rfl, Or.inl h1⟩
      · simp only [raisesValidation, true_iff]
        exact ⟨a, b, rfl, rfl, Or.inr (Or.inl h2)⟩
      · simp only [raisesValidation, true_iff]
        exact ⟨a, b, rfl, rfl, Or.inr (Or.inr h3)⟩
      · simp [raisesValidation, h1, h2, h3]

theorem validate_velocity_range_raises_iff (mn mx : Option ℚ) :
    raisesValidation (validate_velocity_range mn mx) = true ↔
      ∃ a b, mn = some a ∧ mx = some b ∧ (a > b ∨ a < 0 ∨ b < 0) := by
  cases mn with
  | none => simp [validate_velocity_range, raisesValidation]
  | some a =>
    cases mx with
    | none => simp [validate_velocity_range, raisesValidation]
    | some b =>
      simp only [validate_velocity_range]
      split_ifs with h1 h2 h3
      · simp only [raisesValidation, true_iff]
        exact ⟨a, b, rfl, rfl, Or.inl h1⟩
      · simp only [raisesValidation, true_iff]
        exact ⟨a, b, rfl, rfl, Or.inr (Or.inl h2)⟩
      · simp only [raisesValidation, true_iff]
        exact ⟨a, b, rfl, rfl, Or.inr (Or.inr h3)⟩
      · simp [raisesValidation, h1, h2, h3]

theorem validate_diameter_range_raises_iff (mn mx : Option ℚ) :
    raisesValidation (validate_diameter_range mn mx) = true ↔
      ∃ a b, mn = some a ∧ mx = some b ∧ (a > b ∨ a < 0 ∨ b < 0) := by
  cases mn with
  | none => simp [validate_diameter_range, raisesValidation]
  | some a =>
    cases mx with
    | none => simp [validate_diameter_range, raisesValidation]
    | some b =>
      simp only [validate_diameter_range]
      split_ifs with h1 h2 h3
      · simp only [raisesValidation, true_iff]
        exact ⟨a, b, rfl, rfl, Or.inl h1⟩
      · simp only [raisesValidation, true_iff]
        exact ⟨a, b, rfl, rfl, Or.inr (Or.inl h2)⟩
      · simp only [raisesValidation, true_iff]
        exact ⟨a, b, rfl, rfl, Or.inr (Or.inr h3)⟩
      · simp [raisesValidation, h1, h2, h3]

/-- C1 (counterexample): a single present negative bound with the other
bound absent satisfies the claim's raise condition, yet both
`validate_distance_range` and `validate_velocity_range` return without
raising, because every check sits inside the both-bounds-present guard. -/
theorem C1_single_negative_bound_counterexample :
    rangeClaimRaises (some (-1)) none = true ∧
    raisesValidation (validate_distance_range (some (-1)) none) = false ∧
    raisesValidation (validate_velocity_range (some (-1)) none) = false :=
  ⟨by decide, rfl, rfl⟩

/-- C1 (amended): `validate_distance_range` and `validate_velocity_range`
raise the uniform validation failure if and only if both bounds are
present and the lower bound exceeds the upper bound or either bound is
negative; with either bound absent they never raise. -/
theorem C1_range_validators_amended (mn mx : Option ℚ) :
    (raisesValidation (validate_distance_range mn mx) = true ↔
      ∃ a b, mn = some a ∧ mx = some b ∧ (a > b ∨ a < 0 ∨ b < 0)) ∧
    (raisesValidation (validate_velocity_range mn mx) = true ↔
      ∃ a b, mn = some a ∧ mx = some b ∧ (a > b ∨ a < 0 ∨ b < 0)) :=
  ⟨validate_distance_range_raises_iff mn mx,
   validate_velocity_range_raises_iff mn mx⟩

/-- C4 (counterexample): with both diameter bounds present, in order and
negative, the claim says `validate_diameter_range` does not raise, but it
does — the negative-bound checks are present for diameter too. -/
theorem C4_negative_diameter_counterexample :
    orderingOnlyRaises (some (-2)) (some (-1)) = false ∧
    raisesValidation (validate_diameter_range (some (-2)) (some (-1))) = true :=
  ⟨by decide, by decide⟩

/-- C4 (amended): `validate_diameter_range` has exactly the same checks as
the distance and velocity validators: it raises if and only if both bounds
are present and the lower bound exceeds the upper bound or either bound is
negative (so a negative bound does raise when both bounds are present). -/
theorem C4_diameter_range_amended (mn mx : Option ℚ) :
    raisesValidation (validate_diameter_range mn mx) = true ↔
      ∃ a b, mn = some a ∧ mx = some b ∧ (a > b ∨ a < 0 ∨ b < 0) :=
  validate_diameter_range_raises_iff mn mx

/-- C2: constructing a `NearEarthObject` with diameter equal to numeric
0.0 stores the NaN sentinel, not 0.0 — the `if diameter` truthiness guard
treats the falsy float 0.0 exactly like an absent value, so a zero-sized
diameter is not distinguishable from an unknown one.  (The absent/default
case, `float("nan")`, is stored as NaN as the claim says.) -/
theorem C2_zero_diameter_stored_as_nan :
    NearEarthObject.make ("433") none (DiamArg.pyNum (FVal.num 0)) false =
      some { designation := "433", name := none
           , diameter := FVal.nan, hazardous := false } ∧
    NearEarthObject.make ("433") none (DiamArg.pyNum FVal.nan) false =
      some { designation := "433", name := none
           , diameter := FVal.nan, hazardous := false } :=
  ⟨by decide, by decide⟩

/-- C8: an `Approach` whose `neo` link is unset serializes to the nested
mapping with the captured designation, empty name, NaN diameter and
non-hazardous flag. -/
theorem C8_serialize_unlinked (a : CloseApproach) (h : a.neo = none) :
    a.serialize.neo =
      { designation := a._designation, name := ""
      , diameter_km := FVal.nan, potentially_hazardous := false } := by
  simp [CloseApproach.serialize, h]

/-- C8 witness: the unlinked-serialization theorem at a concrete approach. -/
theorem C8_serialize_unlinked_witness :
    (⟨"2020 AB", none, FVal.num 1, FVal.num 2, none⟩ : CloseApproach).serialize.neo =
      { designation := "2020 AB", name := ""
      , diameter_km := FVal.nan, potentially_hazardous := false } :=
  C8_serialize_unlinked (⟨"2020 AB", none, FVal.num 1, FVal.num 2, none⟩ : CloseApproach) rfl

/-- C9: exporting the empty results sequence writes exactly the opening
bracket, two newlines and the closing bracket, in both JSON writer
variants, and no exception escapes. -/
theorem C9_empty_export_brackets :
    fileContents (write_to_json []).1 = "[" ++ "\n" ++ "\n" ++ "]" ∧
    (write_to_json []).2 = none ∧
    fileContents (write_to_json_streaming []).1 = "[" ++ "\n" ++ "\n" ++ "]" ∧
    (write_to_json_streaming []).2 = none :=
  ⟨rfl, rfl, rfl, rfl⟩

/-! ## The JSON and CSV writers (claims C3, C5, C10) -/

theorem fileContents_append (l₁ l₂ : List WEvent) :
    fileContents (l₁ ++ l₂) = fileContents l₁ ++ fileContents l₂ := by
  induction l₁ with
  | nil => simp [fileContents]
  | cons e l ih =>
    cases e <;> simp [fileContents, ih, String.append_assoc]

theorem jsonLoop_handled_spec (rs : List SerResult)
    (h : jsonAllHandled rs = true) :
    (jsonLoop rs false).2 = none ∧
    fileContents (jsonLoop rs false).1 = tailJoin rs := by
  induction rs with
  | nil => exact ⟨rfl, rfl⟩
  | cons r rs ih =>
    simp only [jsonAllHandled, List.all_cons, Bool.and_eq_true] at h
    have htail : jsonAllHandled rs = true := h.2
    obtain ⟨ih1, ih2⟩ := ih htail
    cases r with
    | ok s =>
      refine ⟨ih1, ?_⟩
      simp [jsonLoop, fileContents, fileContents_append, ih2, tailJoin,
        emitted, String.append_assoc]
    | err k =>
      have hk : jsonHandled k = true := h.1
      refine ⟨by simp [jsonLoop, hk, ih1], ?_⟩
      simp [jsonLoop, hk, fileContents, fileContents_append, ih2, tailJoin,
        emitted, String.append_assoc]

theorem joinSep_emitted (r : SerResult) (rs : List SerResult) :
    joinSep ",\n" ((r :: rs).map emitted) = emitted r ++ tailJoin rs := by
  induction rs generalizing r with
  | nil => simp [joinSep, tailJoin]
  | cons r2 rs ih =>
    simp only [List.map_cons] at ih ⊢
    rw [show joinSep ",\n" (emitted r :: emitted r2 :: rs.map emitted) =
      emitted r ++ ",\n" ++ joinSep ",\n" (emitted r2 :: rs.map emitted) from rfl]
    rw [ih r2, tailJoin]
    simp [String.append_assoc]

theorem jsonStreamLoop_noFlush (rs : List SerResult) (first : Bool) :
    noFlush (jsonStreamLoop rs first).1 = (jsonLoop rs first).1 ∧
    (jsonStreamLoop rs first).2 = (jsonLoop rs first).2 := by
  induction rs generalizing first with
  | nil => exact ⟨rfl, rfl⟩
  | cons r rs ih =>
    obtain ⟨ih1, ih2⟩ := ih false
    cases r with
    | ok s =>
      refine ⟨?_, by simp [jsonStreamLoop, jsonLoop, ih2]⟩
      simp [jsonStreamLoop, jsonLoop, noFlush, List.filter_append, ih1]
      cases first <;> simp [noFlush] at ih1 ⊢ <;> exact ih1
    | err k =>
      by_cases hk : jsonHandled k = true
      · refine ⟨?_, by simp [jsonStreamLoop, jsonLoop, hk, ih2]⟩
        simp only [jsonStreamLoop, jsonLoop, hk, if_true]
        simp [noFlush, List.filter_append] at ih1 ⊢
        cases first <;> simp [noFlush] at ih1 ⊢ <;> exact ih1
      · simp only [jsonStreamLoop, jsonLoop, hk, if_false]
        cases first <;> simp [noFlush]

theorem fileContents_noFlush (evs : List WEvent) :
    fileContents (noFlush evs) = fileContents evs := by
  induction evs with
  | nil => rfl
  | cons e evs ih =>
    cases e <;> simp [noFlush, fileContents] at ih ⊢ <;> simp [fileContents, ih]

/-- C5: for every results sequence the buffered and the streaming JSON
writers leave byte-for-byte identical file contents and propagate the same
exception; dropping the flush events from the streaming writer's handle
history yields exactly the buffered writer's history. -/
theorem C5_streaming_writer_equivalent (results : List SerResult) :
    fileContents (write_to_json_streaming results).1 =
      fileContents (write_to_json results).1 ∧
    noFlush (write_to_json_streaming results).1 = (write_to_json results).1 ∧
    (write_to_json_streaming results).2 = (write_to_json results).2 := by
  obtain ⟨h1, h2⟩ := jsonStreamLoop_noFlush results true
  have hflush : noFlush (write_to_json_streaming results).1 =
      (write_to_json results).1 := by
    unfold write_to_json write_to_json_streaming
    rcases hs : jsonStreamLoop results true with ⟨evs, e⟩
    rcases hj : jsonLoop results true with ⟨evs2, e2⟩
    rw [hs, hj] at h1 h2
    simp only at h1 h2
    subst h2
    cases e <;> simp [noFlush, List.filter_append, ← h1]
  have hsnd : (write_to_json_streaming results).2 =
      (write_to_json results).2 := by
    unfold write_to_json write_to_json_streaming
    rcases hs : jsonStreamLoop results true with ⟨evs, e⟩
    rcases hj : jsonLoop results true with ⟨evs2, e2⟩
    rw [hs, hj] at h2
    simp only at h2
    subst h2
    cases e <;> simp
  refine ⟨?_, hflush, hsnd⟩
  rw [← hflush, fileContents_noFlush]

/-- C3 (counterexample): when the first entity fails and the second
succeeds, both JSON writers emit the separator of the surviving element
even though no element precedes it — the comma is written before the
serialization attempt — so the file is not the claimed bracketed array of
exactly the successful elements. -/
theorem C3_comma_before_serialize_counterexample :
    jsonAllHandled [SerResult.err ExcKind.attrErr, SerResult.ok ("X")] = true ∧
    fileContents
      (write_to_json [SerResult.err ExcKind.attrErr, SerResult.ok ("X")]).1 =
      "[\n,\nX\n]" ∧
    fileContents
      (write_to_json_streaming
        [SerResult.err ExcKind.attrErr, SerResult.ok ("X")]).1 =
      "[\n,\nX\n]" ∧
    jsonArrayOf (okStrings [SerResult.err ExcKind.attrErr, SerResult.ok ("X")]) =
      "[\nX\n]" ∧
    ("[\n,\nX\n]" : String) ≠ "[\nX\n]" :=
  ⟨rfl, rfl, rfl, rfl, by decide⟩

/-- C3 (amended): when every failing entity raises a handled kind, both
JSON writers skip each failing entity, no exception escapes, and the file
is the bracketed comma-separated sequence of the per-entity contributions
— the text of each successful entity and an empty contribution for each
skipped one, which therefore still leaves its separator behind.  The
output is a valid JSON array of exactly the successes only when no entity
fails (or the whole sequence is a single skipped entity). -/
theorem C3_json_skip_amended (results : List SerResult)
    (h : jsonAllHandled results = true) :
    (write_to_json results).2 = none ∧
    fileContents (write_to_json results).1 =
      "[\n" ++ joinSep ",\n" (results.map emitted) ++ "\n]" ∧
    (write_to_json_streaming results).2 = none ∧
    fileContents (write_to_json_streaming results).1 =
      "[\n" ++ joinSep ",\n" (results.map emitted) ++ "\n]" := by
  have hjson : (write_to_json results).2 = none ∧
      fileContents (write_to_json results).1 =
        "[\n" ++ joinSep ",\n" (results.map emitted) ++ "\n]" := by
    cases results with
    | nil =>
      exact ⟨rfl, rfl⟩
    | cons r rs =>
      simp only [jsonAllHandled, List.all_cons, Bool.and_eq_true] at h
      obtain ⟨ihsnd, ihfst⟩ := jsonLoop_handled_spec rs h.2
      have hloop : (jsonLoop (r :: rs) true).2 = none ∧
          fileContents (jsonLoop (r :: rs) true).1 = emitted r ++ tailJoin rs := by
        cases r with
        | ok s =>
          refine ⟨ihsnd, ?_⟩
          simp [jsonLoop, fileContents, ihfst, emitted]
        | err k =>
          have hk : jsonHandled k = true := h.1
          refine ⟨by simp [jsonLoop, hk, ihsnd], ?_⟩
          simp [jsonLoop, hk, fileContents, ihfst, emitted]
      rw [joinSep_emitted r rs]
      unfold write_to_json
      rcases hl : jsonLoop (r :: rs) true with ⟨evs, e⟩
      rw [hl] at hloop
      obtain ⟨h2, h1⟩ := hloop
      simp only at h2 h1
      subst h2
      refine ⟨rfl, ?_⟩
      simp [fileContents_append, fileContents, h1, String.append_assoc]
  obtain ⟨hs1, hs2, hs3⟩ := C5_streaming_writer_equivalent results
  exact ⟨hjson.1, hjson.2, hs3.trans hjson.1, hs1.trans hjson.2⟩

/-- C3 witness: the amended theorem at a concrete three-entity stream with
a skipped entity in the middle. -/
theorem C3_json_skip_amended_witness :
    (write_to_json [SerResult.ok ("A"), SerResult.err ExcKind.typeErr,
      SerResult.ok ("B")]).2 = none ∧
    fileContents (write_to_json [SerResult.ok ("A"),
      SerResult.err ExcKind.typeErr, SerResult.ok ("B")]).1 =
      "[\n" ++ joinSep ",\n" ([SerResult.ok ("A"),
        SerResult.err ExcKind.typeErr, SerResult.ok ("B")].map emitted) ++
        "\n]" ∧
    (write_to_json_streaming [SerResult.ok ("A"), SerResult.err ExcKind.typeErr,
      SerResult.ok ("B")]).2 = none ∧
    fileContents (write_to_json_streaming [SerResult.ok ("A"),
      SerResult.err ExcKind.typeErr, SerResult.ok ("B")]).1 =
      "[\n" ++ joinSep ",\n" ([SerResult.ok ("A"),
        SerResult.err ExcKind.typeErr, SerResult.ok ("B")].map emitted) ++
        "\n]" :=
  C3_json_skip_amended
    [SerResult.ok ("A"), SerResult.err ExcKind.typeErr, SerResult.ok ("B")]
    (by decide)

theorem jsonLoop_snd_none_iff (rs : List SerResult) :
    ∀ first, ((jsonLoop rs first).2 = none ↔ jsonAllHandled rs = true) := by
  induction rs with
  | nil => intro first; simp [jsonLoop, jsonAllHandled]
  | cons r rs ih =>
    intro first
    cases r with
    | ok s =>
      simp [jsonLoop, jsonAllHandled, List.all_cons]
      simpa [jsonAllHandled] using ih false
    | err k =>
      by_cases hk : jsonHandled k = true
      · simp [jsonLoop, hk, jsonAllHandled, List.all_cons]
        simpa [jsonAllHandled] using ih false
      · simp [jsonLoop, hk, jsonAllHandled, List.all_cons]

theorem csvLoop_snd_none_iff (rs : List SerResult) :
    (csvLoop rs).2 = none ↔ csvAllHandled rs = true := by
  induction rs with
  | nil => simp [csvLoop, csvAllHandled]
  | cons r rs ih =>
    cases r with
    | ok s =>
      simp [csvLoop, csvAllHandled, List.all_cons]
      simpa [csvAllHandled] using ih
    | err k =>
      by_cases hk : csvHandled k = true
      · simp [csvLoop, hk, csvAllHandled, List.all_cons]
        simpa [csvAllHandled] using ih
      · simp [csvLoop, hk, csvAllHandled, List.all_cons]

/-- C10: the per-record exception kinds the writers handle differ — the
CSV writer completes without an escaping exception exactly when every
failure is an AttributeError or KeyError, while both JSON writers complete
exactly when every failure is an AttributeError or TypeError; a KeyError
aborts a JSON export (before the closing bracket is written) and a
TypeError aborts a CSV export. -/
theorem C10_writer_exception_kinds (results : List SerResult) :
    ((write_to_json results).2 = none ↔ jsonAllHandled results = true) ∧
    ((write_to_json_streaming results).2 = none ↔
      jsonAllHandled results = true) ∧
    ((write_to_csv results).2 = none ↔ csvAllHandled results = true) ∧
    jsonHandled ExcKind.attrErr = true ∧ jsonHandled ExcKind.typeErr = true ∧
    jsonHandled ExcKind.keyErr = false ∧
    csvHandled ExcKind.attrErr = true ∧ csvHandled ExcKind.keyErr = true ∧
    csvHandled ExcKind.typeErr = false ∧
    (write_to_json [SerResult.ok ("A"), SerResult.err ExcKind.keyErr,
      SerResult.ok ("B")]).2 = some ExcKind.keyErr ∧
    fileContents (write_to_json [SerResult.ok ("A"),
      SerResult.err ExcKind.keyErr, SerResult.ok ("B")]).1 = "[\nA,\n" ∧
    (write_to_csv [SerResult.ok ("A"), SerResult.err ExcKind.typeErr,
      SerResult.ok ("B")]).2 = some ExcKind.typeErr := by
  have hjson : (write_to_json results).2 = (jsonLoop results true).2 := by
    unfold write_to_json
    rcases hl : jsonLoop results true with ⟨evs, e⟩
    cases e <;> simp
  have hcsv : (write_to_csv results).2 = (csvLoop results).2 := rfl
  have hstream := (C5_streaming_writer_equivalent results).2.2
  refine ⟨?_, ?_, ?_, rfl, rfl, rfl, rfl, rfl, rfl, rfl, rfl, rfl⟩
  · rw [hjson]; exact jsonLoop_snd_none_iff results true
  · rw [hstream, hjson]; exact jsonLoop_snd_none_iff results true
  · rw [hcsv]; exact csvLoop_snd_none_iff results

/-! ## Loading and serializing a tabular row (claim C6) -/

/-- C6: loading a valid tabular row and serializing the resulting Body
round-trips designation, hazardous, and the presence or absence of name
and diameter exactly: an empty or whitespace-only name field yields name
`none` (serialized as the empty string), an empty diameter field yields
the NaN sentinel, a present field yields a present value, and hazardous
holds iff the pha field equals the literal "Y". -/
theorem C6_load_serialize_roundtrip (row : NeoRow) (h : row.valid = true) :
    ∃ neo, load_neo_row row = some neo ∧
      neo.designation = row.pdes ∧
      neo.serialize.designation = row.pdes ∧
      (neo.name = none ↔ pyStrip row.name = "") ∧
      (neo.serialize.name = "" ↔ pyStrip row.name = "") ∧
      (pyStrip row.name ≠ "" →
        neo.name = some row.name ∧ neo.serialize.name = row.name) ∧
      (neo.diameter = FVal.nan ↔ pyStrip row.diameter = "") ∧
      neo.serialize.diameter_km = neo.diameter ∧
      (neo.hazardous = true ↔ row.pha = "Y") ∧
      (neo.serialize.potentially_hazardous = true ↔ row.pha = "Y") := by
  have des_eq : (if row.pdes ≠ "" then row.pdes else "") = row.pdes := by
    by_cases hp : row.pdes = "" <;> simp [hp]
  have serialize_diam : ∀ neo : NearEarthObject,
      neo.serialize.diameter_km = neo.diameter := by
    intro neo
    cases hnd : neo.diameter <;>
      simp [NearEarthObject.serialize, FVal.selfNe, hnd]
  by_cases hn : pyStrip row.name = ""
  · by_cases hd : pyStrip row.diameter = ""
    · refine ⟨⟨row.pdes, none, FVal.nan, row.pha = "Y"⟩, ?_, rfl, ?_, ?_, ?_,
        ?_, ?_, serialize_diam _,
        decide_eq_true_iff, decide_eq_true_iff⟩
      · simp [load_neo_row, NearEarthObject.make, hn, hd, des_eq,
          DiamArg.truthy]
      · simp [NearEarthObject.serialize, des_eq]
      · simp [hn]
      · simp [NearEarthObject.serialize, hn]
      · simp [hn]
      · simp [hd]
    · have hdne : row.diameter ≠ "" := by
        intro he
        exact hd (by rw [he]; rfl)
      have hq : ∃ q, pyFloat? row.diameter = some q := by
        have hv := h
        simp only [NeoRow.valid, hd, Bool.false_or] at hv
        exact Option.isSome_iff_exists.mp hv
      obtain ⟨q, hq⟩ := hq
      refine ⟨⟨row.pdes, none, FVal.num q, row.pha = "Y"⟩, ?_, rfl, ?_, ?_, ?_,
        ?_, ?_, serialize_diam _,
        decide_eq_true_iff, decide_eq_true_iff⟩
      · simp [load_neo_row, NearEarthObject.make, hn, hd, des_eq,
          DiamArg.truthy, DiamArg.strStripTruthy, DiamArg.toFloat?, hdne, hq]
      · simp [NearEarthObject.serialize, des_eq]
      · simp [hn]
      · simp [NearEarthObject.serialize, hn]
      · simp [hn]
      · simp [hd]
  · have hnne : row.name ≠ "" := by
      intro he
      exact hn (by rw [he]; rfl)
    by_cases hd : pyStrip row.diameter = ""
    · refine ⟨⟨row.pdes, some row.name, FVal.nan, row.pha = "Y"⟩, ?_, rfl, ?_,
        ?_, ?_, ?_, ?_, serialize_diam _,
        decide_eq_true_iff, decide_eq_true_iff⟩
      · simp [load_neo_row, NearEarthObject.make, hn, hd, des_eq,
          DiamArg.truthy, hnne]
      · simp [NearEarthObject.serialize, des_eq]
      · simp [hn]
      · simp [NearEarthObject.serialize, hn, hnne]
      · intro
        exact ⟨rfl, by simp [NearEarthObject.serialize, hnne]⟩
      · simp [hd]
    · have hdne : row.diameter ≠ "" := by
        intro he
        exact hd (by rw [he]; rfl)
      have hq : ∃ q, pyFloat? row.diameter = some q := by
        have hv := h
        simp only [NeoRow.valid, hd, Bool.false_or] at hv
        exact Option.isSome_iff_exists.mp hv
      obtain ⟨q, hq⟩ := hq
      refine ⟨⟨row.pdes, some row.name, FVal.num q, row.pha = "Y"⟩, ?_, rfl,
        ?_, ?_, ?_, ?_, ?_, serialize_diam _,
        decide_eq_true_iff, decide_eq_true_iff⟩
      · simp [load_neo_row, NearEarthObject.make, hn, hd, des_eq,
          DiamArg.truthy, DiamArg.strStripTruthy, DiamArg.toFloat?, hdne, hq,
          hnne]
      · simp [NearEarthObject.serialize, des_eq]
      · simp [hn]
      · simp [NearEarthObject.serialize, hn, hnne]
      · intro
        exact ⟨rfl, by simp [NearEarthObject.serialize, hnne]⟩
      · simp [hd]

/-- C6 witness: the round-trip theorem at a concrete row with a
whitespace-only name field, an empty diameter field, and pha "Y". -/
theorem C6_load_serialize_roundtrip_witness :
    ∃ neo, load_neo_row ⟨"433", " ", "", "Y"⟩ = some neo ∧
      neo.designation = (⟨"433", " ", "", "Y"⟩ : NeoRow).pdes ∧
      neo.serialize.designation = (⟨"433", " ", "", "Y"⟩ : NeoRow).pdes ∧
      (neo.name = none ↔ pyStrip (⟨"433", " ", "", "Y"⟩ : NeoRow).name = "") ∧
      (neo.serialize.name = "" ↔
        pyStrip (⟨"433", " ", "", "Y"⟩ : NeoRow).name = "") ∧
      (pyStrip (⟨"433", " ", "", "Y"⟩ : NeoRow).name ≠ "" →
        neo.name = some (⟨"433", " ", "", "Y"⟩ : NeoRow).name ∧
        neo.serialize.name = (⟨"433", " ", "", "Y"⟩ : NeoRow).name) ∧
      (neo.diameter = FVal.nan ↔
        pyStrip (⟨"433", " ", "", "Y"⟩ : NeoRow).diameter = "") ∧
      neo.serialize.diameter_km = neo.diameter ∧
      (neo.hazardous = true ↔ (⟨"433", " ", "", "Y"⟩ : NeoRow).pha = "Y") ∧
      (neo.serialize.potentially_hazardous = true ↔
        (⟨"433", " ", "", "Y"⟩ : NeoRow).pha = "Y") :=
  C6_load_serialize_roundtrip ⟨"433", " ", "", "Y"⟩ (by decide)

/-! ## Field-order independence of load_approaches (claim C7) -/

theorem indexOf_bind_eq_assocFind (fs : List String) :
    ∀ (rw : List String) (key : String), rw.length = fs.length →
      (fs.indexOf? key).bind rw.get? = assocFind key (fs.zip rw) := by
  induction fs with
  | nil =>
    intro rw key _
    simp [assocFind]
  | cons f fs ih =>
    intro rw key hlen
    cases rw with
    | nil => simp at hlen
    | cons r rw =>
      simp only [List.length_cons, Nat.succ.injEq] at hlen
      rw [List.indexOf?_cons]
      by_cases hf : f = key
      · simp [hf, List.zip_cons_cons, assocFind]
      · have hbeq : (f == key) = false := by
          simp [hf]
        rw [hbeq]
        simp only [if_false, Bool.false_eq_true]
        rw [List.zip_cons_cons]
        simp only [assocFind, hf, if_false]
        rw [← ih rw key hlen]
        cases hidx : fs.indexOf? key with
        | none => simp
        | some i => simp

theorem rangeMap_getD_self (n : ℕ) :
    ∀ l : List String, l.length = n →
      (List.range n).map (fun i => l.getD i "") = l := by
  induction n with
  | zero =>
    intro l hl
    rw [List.length_eq_zero] at hl
    subst hl
    rfl
  | succ n ih =>
    intro l hl
    cases l with
    | nil => simp at hl
    | cons a l =>
      simp only [List.length_cons, Nat.succ.injEq] at hl
      rw [List.range_succ_eq_map, List.map_cons, List.map_map]
      simp only [List.getD_cons_zero]
      congr 1
      have hcomp : List.map ((fun i => (a :: l).getD i "") ∘ Nat.succ)
          (List.range n) = List.map (fun i => l.getD i "") (List.range n) := by
        apply List.map_congr_left
        intro i _
        simp
      rw [hcomp]
      exact ih l hl

theorem rangeMap_getD_pair (n : ℕ) :
    ∀ l₁ l₂ : List String, l₁.length = n → l₂.length = n →
      (List.range n).map (fun i => (l₁.getD i "", l₂.getD i "")) = l₁.zip l₂ := by
  induction n with
  | zero =>
    intro l₁ l₂ h₁ h₂
    rw [List.length_eq_zero] at h₁ h₂
    subst h₁
    subst h₂
    rfl
  | succ n ih =>
    intro l₁ l₂ h₁ h₂
    cases l₁ with
    | nil => simp at h₁
    | cons a l₁ =>
      cases l₂ with
      | nil => simp at h₂
      | cons b l₂ =>
        simp only [List.length_cons, Nat.succ.injEq] at h₁ h₂
        rw [List.range_succ_eq_map, List.map_cons, List.map_map]
        simp only [List.getD_cons_zero, List.zip_cons_cons]
        congr 1
        have hcomp : List.map
            ((fun i => ((a :: l₁).getD i "", (b :: l₂).getD i "")) ∘ Nat.succ)
            (List.range n) =
            List.map (fun i => (l₁.getD i "", l₂.getD i "")) (List.range n) := by
          apply List.map_congr_left
          intro i _
          simp
        rw [hcomp]
        exact ih l₁ l₂ h₁ h₂

theorem permuteBy_perm (p : List ℕ) (l : List String) (n : ℕ)
    (hp : p.Perm (List.range n)) (hl : l.length = n) :
    (permuteBy p l).Perm l := by
  unfold permuteBy
  have h := hp.map (fun i => l.getD i "")
  rwa [rangeMap_getD_self n l hl] at h

theorem zip_permuteBy_perm (p : List ℕ) (l₁ l₂ : List String) (n : ℕ)
    (hp : p.Perm (List.range n)) (h₁ : l₁.length = n) (h₂ : l₂.length = n) :
    ((permuteBy p l₁).zip (permuteBy p l₂)).Perm (l₁.zip l₂) := by
  unfold permuteBy
  rw [List.zip_map']
  have h := hp.map (fun i => (l₁.getD i "", l₂.getD i ""))
  rwa [rangeMap_getD_pair n l₁ l₂ h₁ h₂] at h

theorem assocFind_of_perm {l₁ l₂ : List (String × String)} (h : l₁.Perm l₂)
    (nd : (l₁.map Prod.fst).Nodup) (key : String) :
    assocFind key l₁ = assocFind key l₂ := by
  induction h with
  | nil => rfl
  | cons x h ih =>
    simp only [List.map_cons, List.nodup_cons] at nd
    rcases x with ⟨xk, xv⟩
    simp only [assocFind]
    by_cases hxk : xk = key
    · simp [hxk]
    · simp [hxk, ih nd.2]
  | swap x y t =>
    rcases x with ⟨xk, xv⟩
    rcases y with ⟨yk, yv⟩
    simp only [List.map_cons, List.nodup_cons, List.mem_cons] at nd
    have hne : yk ≠ xk := fun he => nd.1 (Or.inl he)
    simp only [assocFind]
    by_cases hyk : yk = key
    · have hxk : xk ≠ key := fun he => hne (hyk.trans he.symm)
      simp [hyk, hxk]
    · by_cases hxk : xk = key <;> simp [hyk, hxk]
  | trans h₁ h₂ ih₁ ih₂ =>
    have nd₂ := ((h₁.map Prod.fst).nodup_iff).mp nd
    exact (ih₁ nd).trans (ih₂ nd₂)

theorem indexOf?_none_iff_not_mem (l : List String) (key : String) :
    l.indexOf? key = none ↔ key ∉ l := by
  rw [List.indexOf?_eq_none_iff]
  constructor
  · intro h hmem
    exact absurd (beq_self_eq_true key) (by simpa using h key hmem)
  · intro h x hx
    simp only [beq_iff_eq, ne_eq]
    intro he
    exact h (he ▸ hx)

theorem permuted_lookup_eq (p : List ℕ) (fields row : List String)
    (hp : p.Perm (List.range fields.length)) (hnd : fields.Nodup)
    (hrow : row.length = fields.length) (key : String) :
    ((permuteBy p fields).indexOf? key).bind (permuteBy p row).get? =
      (fields.indexOf? key).bind row.get? := by
  have hpf : (permuteBy p fields).length = p.length := by simp [permuteBy]
  have hpr : (permuteBy p row).length = p.length := by simp [permuteBy]
  rw [indexOf_bind_eq_assocFind (permuteBy p fields) (permuteBy p row) key
    (hpr.trans hpf.symm)]
  rw [indexOf_bind_eq_assocFind fields row key hrow]
  apply assocFind_of_perm
  · exact zip_permuteBy_perm p fields row fields.length hp rfl hrow
  · have hkeys : ((permuteBy p fields).zip (permuteBy p row)).map Prod.fst =
        permuteBy p fields :=
      List.map_fst_zip _ _ (le_of_eq (hpf.trans hpr.symm))
    rw [hkeys]
    exact ((permuteBy_perm p fields fields.length hp rfl).nodup_iff).mpr hnd

theorem loadApproachRows_congr (g : List String → List String)
    (iD iC iT iV iD2 iC2 iT2 iV2 : ℕ) :
    ∀ data : List (List String),
      (∀ row ∈ data, (g row).get? iD2 = row.get? iD ∧
        (g row).get? iC2 = row.get? iC ∧
        (g row).get? iT2 = row.get? iT ∧
        (g row).get? iV2 = row.get? iV) →
      loadApproachRows iD2 iC2 iT2 iV2 (data.map g) =
        loadApproachRows iD iC iT iV data := by
  intro data
  induction data with
  | nil =>
    intro _
    rfl
  | cons row rest ih =>
    intro h
    obtain ⟨h1, h2, h3, h4⟩ := h row (List.mem_cons_self row rest)
    have ht := ih (fun r hr => h r (List.mem_cons_of_mem row hr))
    simp only [List.map_cons, loadApproachRows]
    rw [h1, h2, h3, h4, ht]

/-- C7: for well-formed structured-text input (distinct field names, rows
as long as the header), applying any permutation to `fields` together
with the same permutation of each data row's positions yields an
identical list of parsed approaches, because `load_approaches` resolves
each required field's position by name lookup in the header. -/
theorem C7_field_order_independence (p : List ℕ) (fields : List String)
    (data : List (List String)) (hp : p.Perm (List.range fields.length))
    (hnd : fields.Nodup) (hrows : ∀ row ∈ data, row.length = fields.length) :
    load_approaches (permuteBy p fields) (data.map (permuteBy p)) =
      load_approaches fields data := by
  have hmem : ∀ key : String,
      ((permuteBy p fields).indexOf? key = none ↔
        fields.indexOf? key = none) := by
    intro key
    rw [indexOf?_none_iff_not_mem, indexOf?_none_iff_not_mem]
    exact not_congr (permuteBy_perm p fields fields.length hp rfl).mem_iff
  have hget : ∀ row ∈ data, ∀ key : String,
      ((permuteBy p fields).indexOf? key).bind (permuteBy p row).get? =
        (fields.indexOf? key).bind row.get? :=
    fun row hr key => permuted_lookup_eq p fields row hp hnd (hrows row hr) key
  cases hdes : fields.indexOf? ("des") with
  | none =>
    have hdes2 : (permuteBy p fields).indexOf? ("des") = none :=
      (hmem _).mpr hdes
    simp [load_approaches, hdes, hdes2]
  | some iD =>
    obtain ⟨iD2, hdes2⟩ := Option.ne_none_iff_exists'.mp
      (show (permuteBy p fields).indexOf? ("des") ≠ none from
        fun hnone => by simp [(hmem _).mp hnone] at hdes)
    cases hcd : fields.indexOf? ("cd") with
    | none =>
      have hcd2 : (permuteBy p fields).indexOf? ("cd") = none :=
        (hmem _).mpr hcd
      simp [load_approaches, hdes, hdes2, hcd, hcd2]
    | some iC =>
      obtain ⟨iC2, hcd2⟩ := Option.ne_none_iff_exists'.mp
        (show (permuteBy p fields).indexOf? ("cd") ≠ none from
          fun hnone => by simp [(hmem _).mp hnone] at hcd)
      cases hdist : fields.indexOf? ("dist") with
      | none =>
        have hdist2 : (permuteBy p fields).indexOf? ("dist") = none :=
          (hmem _).mpr hdist
        simp [load_approaches, hdes, hdes2, hcd, hcd2, hdist, hdist2]
      | some iT =>
        obtain ⟨iT2, hdist2⟩ := Option.ne_none_iff_exists'.mp
          (show (permuteBy p fields).indexOf? ("dist") ≠ none from
            fun hnone => by simp [(hmem _).mp hnone] at hdist)
        cases hvrel : fields.indexOf? ("v_rel") with
        | none =>
          have hvrel2 : (permuteBy p fields).indexOf? ("v_rel") = none :=
            (hmem _).mpr hvrel
          simp [load_approaches, hdes, hdes2, hcd, hcd2, hdist, hdist2,
            hvrel, hvrel2]
        | some iV =>
          obtain ⟨iV2, hvrel2⟩ := Option.ne_none_iff_exists'.mp
            (show (permuteBy p fields).indexOf? ("v_rel") ≠ none from
              fun hnone => by simp [(hmem _).mp hnone] at hvrel)
          simp only [load_approaches, hdes, hdes2, hcd, hcd2, hdist, hdist2,
            hvrel, hvrel2]
          show loadApproachRows iD2 iC2 iT2 iV2 (data.map (permuteBy p)) =
            loadApproachRows iD iC iT iV data
          apply loadApproachRows_congr
          intro row hr
          have hD := hget row hr ("des")
          have hC := hget row hr ("cd")
          have hT := hget row hr ("dist")
          have hV := hget row hr ("v_rel")
          rw [hdes, hdes2] at hD
          rw [hcd, hcd2] at hC
          rw [hdist, hdist2] at hT
          rw [hvrel, hvrel2] at hV
          exact ⟨hD, hC, hT, hV⟩

/-- C7 witness: the order-independence theorem at a concrete permutation
of the four required columns and one data row. -/
theorem C7_field_order_independence_witness :
    load_approaches (permuteBy [2, 0, 1, 3] ["des", "cd", "dist", "v_rel"])
      ([["2020 AB", "2020-Jan-01 12:00", "0.5", "10"]].map
        (permuteBy [2, 0, 1, 3])) =
      load_approaches ["des", "cd", "dist", "v_rel"]
        [["2020 AB", "2020-Jan-01 12:00", "0.5", "10"]] :=
  C7_field_order_independence [2, 0, 1, 3] ["des", "cd", "dist", "v_rel"]
    [["2020 AB", "2020-Jan-01 12:00", "0.5", "10"]] (by decide) (by decide)
    (by decide)
